import Mathlib

/-!
Verification development for the Chanomhub desktop download manager
(src-tauri/src/main.rs and src-tauri/src/state.rs).

The Rust code keeps an `ActiveDownloads` registry behind a read-write
lock: a `HashMap<String, DownloadInfo>` of download records plus a
process-local `HashMap<String, CancellationToken>` of cancellation
handles (the token map carries a serde skip attribute, so it is never
persisted).  The Tauri commands `webview2_response`,
`cancel_active_download`, `register_manual_download` and
`start_webview2_download` mutate the registry and persist it with
`save_active_downloads_to_file`; `cleanup_active_downloads` reconciles
a registry loaded at startup.

We embed the registry as association lists over `String` keys, the
progress floats as rationals, and each command as a pure state
transformer.  External effects (signalling a token, spawning the
helper with a cancel instruction, emitting UI events, showing a
notification) are recorded in an explicit `Effect` list where a claim
needs them; file-system probes and clock reads become parameters.
-/

namespace Chanomhub

/-- Lookup in an association list keyed by strings (models HashMap get). -/
def alLookup {α : Type} (k : String) : List (String × α) → Option α
  | [] => none
  | (k₂, v) :: rest => if k₂ = k then some v else alLookup k rest

/-- Remove a key from an association list (models HashMap remove). -/
def alErase {α : Type} (k : String) (l : List (String × α)) : List (String × α) :=
  l.filter (fun p => p.1 != k)

/-- Insert-or-replace in an association list (models HashMap insert /
in-place mutation through get_mut). -/
def alInsert {α : Type} (k : String) (v : α) (l : List (String × α)) : List (String × α) :=
  (k, v) :: alErase k l

/-- One download record, field for field the Rust struct `DownloadInfo`.
f32 progress values are modelled as rationals. -/
structure DownloadInfo where
  id : String
  filename : String
  url : String
  progress : ℚ
  status : String
  path : Option String
  error : Option String
  provider : Option String
  downloaded_at : Option String
  extracted : Bool
  extracted_path : Option String
  extraction_status : Option String
  extraction_progress : Option ℚ
deriving DecidableEq, Repr

/-- The registry struct `ActiveDownloads`: the persisted `downloads`
map and the serde-skipped `tokens` map.  For tokens only the key set
matters to the model, so they are a list of ids. -/
structure ActiveDownloads where
  downloads : List (String × DownloadInfo)
  tokens : List String
deriving DecidableEq, Repr

/-- In-memory registry together with the persisted
`active_downloads.json` content (the downloads map that
`save_active_downloads_to_file` last wrote). -/
structure Sys where
  mem : ActiveDownloads
  file : List (String × DownloadInfo)
deriving DecidableEq, Repr

/-- A parsed status event as `webview2_response` reads it from the
JSON payload.  Each field mirrors one `response.get(...)` access:
`downloadId`, `status`, `filename`, `message` are read with `as_str`,
`progress` with `as_f64`, `downloadStarted` with
`as_bool.unwrap_or(false)`.  The `path` key is special: the code
checks both the key's presence (`is_some`) and its string value
(`and_then as_str`), so it is a double option — `none` means the key
is absent, `some none` a key with a non-string value, `some (some s)`
a string value. -/
structure Event where
  downloadId : Option String
  status : Option String
  progress : Option ℚ
  path : Option (Option String)
  filename : Option String
  message : Option String
  downloadStarted : Bool
deriving DecidableEq, Repr

/-- The string value of the event's `path` key, if any. -/
def Event.pathStr (e : Event) : Option String :=
  e.path.bind (fun x => x)

/-- Record inserted by `webview2_response` when `downloadStarted` is
true and the id is unknown (main.rs lines 690-704). -/
def mkStartedInfo (did fname : String) : DownloadInfo :=
  { id := did
    filename := fname
    url := ""
    progress := 1 / 10
    status := "downloading"
    path := none
    error := none
    provider := some "webview2"
    downloaded_at := none
    extracted := false
    extracted_path := none
    extraction_status := some "idle"
    extraction_progress := some 0 }

/-- The per-record update `webview2_response` applies to an existing
record (main.rs lines 720-819), as a function of the event, the
already-extracted status string, the `downloadStarted` flag and the
current time. -/
def updateKnown (now : String) (e : Event) (status : String) (started : Bool)
    (d : DownloadInfo) : DownloadInfo :=
  if status = "success" then
    match e.pathStr with
    | some p =>
      let d₁ := { d with status := "completed", progress := 100, path := some p,
                         downloaded_at := some now }
      match e.filename with
      | some f => { d₁ with filename := f }
      | none => d₁
    | none =>
      let d₁ := { d with status := "downloading" }
      if d₁.progress < 10 then { d₁ with progress := 10 } else d₁
  else if status = "error" then
    { d with status := "failed", error := e.message }
  else if status = "progress" then
    match e.progress with
    | some p =>
      if p > d.progress ∨ started = true then
        { d with progress := p, status := "downloading" }
      else d
    | none => d
  else
    { d with status := "unknown", error := some ("Unknown status: " ++ status) }

/-- The record `webview2_response` synthesizes for an unknown id on a
success, error or progress event (main.rs lines 839-874). -/
def synthInfo (did status : String) (e : Event) : DownloadInfo :=
  { id := did
    filename := e.filename.getD "Unknown file"
    url := ""
    progress := if status = "progress" then e.progress.getD 0 else 0
    status :=
      if status = "success" then
        if e.path.isSome then "completed" else "downloading"
      else if status = "progress" then "downloading"
      else if status = "error" then "failed"
      else "unknown"
    path := e.pathStr
    error := if status = "error" then e.message else none
    provider := some "webview2"
    downloaded_at := none
    extracted := false
    extracted_path := none
    extraction_status := some "idle"
    extraction_progress := some 0 }

/-- The Tauri command `webview2_response` (main.rs lines 643-914) as a
state transformer: it returns the command's `Result` together with
the registry-and-file state after the call.  A missing or non-string
`downloadId` is rejected before the registry is touched; otherwise the
record map is updated, tokens are dropped for success/error events,
and the registry is persisted. -/
def webview2_response (now : String) (e : Event) (s : Sys) :
    Except String Unit × Sys :=
  match e.downloadId with
  | none => (Except.error "Missing downloadId in WebView2 response", s)
  | some did =>
    let status := e.status.getD "unknown"
    let started := e.downloadStarted
    let dls₀ := s.mem.downloads
    let dls₁ :=
      if started = true ∧ alLookup did dls₀ = none then
        alInsert did (mkStartedInfo did (e.filename.getD "Unknown file")) dls₀
      else dls₀
    let dls₂ :=
      match alLookup did dls₁ with
      | some d => alInsert did (updateKnown now e status started d) dls₁
      | none =>
        if did.length > 0 ∧ (status = "success" ∨ status = "error" ∨ status = "progress") then
          alInsert did (synthInfo did status e) dls₁
        else dls₁
    let toks :=
      if status = "success" ∨ status = "error" then
        s.mem.tokens.filter (fun t => t != did)
      else s.mem.tokens
    (Except.ok (), { mem := { downloads := dls₂, tokens := toks }, file := dls₂ })

/-- External effects performed by `cancel_active_download`, in order:
signalling the cancellation token, spawning the helper binary with a
cancelDownload instruction, emitting the cancel-download event, and
showing the user notification. -/
inductive Effect where
  | signalToken : String → Effect
  | helperCancel : String → Effect
  | emitCancel : String → Effect
  | notifyUser : String → String → Effect
deriving DecidableEq, Repr

/-- The Tauri command `cancel_active_download` (main.rs lines
961-1018).  If no token is registered for the id it fails with the
not-found error and leaves the state untouched; otherwise it removes
the token, marks the record cancelled, performs the external effects
and persists.  Availability of the helper binary and success of the
spawn/emit/notify calls are assumed (they are environment failures
outside the model). -/
def cancel_active_download (did : String) (s : Sys) :
    Except String (List Effect) × Sys :=
  if did ∈ s.mem.tokens then
    let toks := s.mem.tokens.filter (fun t => t != did)
    let dls :=
      match alLookup did s.mem.downloads with
      | some d =>
        alInsert did
          { d with status := "cancelled", progress := 0,
                   error := some "Download cancelled by user" }
          s.mem.downloads
      | none => s.mem.downloads
    (Except.ok
      [Effect.signalToken did, Effect.helperCancel did, Effect.emitCancel did,
       Effect.notifyUser "Download Cancelled" ("Download " ++ did ++ " was cancelled")],
     { mem := { downloads := dls, tokens := toks }, file := dls })
  else
    (Except.error ("No active download found for id: " ++ did), s)

/-- The Tauri command `register_manual_download` (main.rs lines
1026-1072).  The file-system probe for `path ++ "_extracted"` is the
boolean parameter `siblingExists`; the clock read is `now`. -/
def register_manual_download (did fname path : String) (siblingExists : Bool)
    (now : String) (s : Sys) : Sys :=
  let extracted_path := path ++ "_extracted"
  let info : DownloadInfo :=
    { id := did
      filename := fname
      url := ""
      progress := 100
      status := "completed"
      path := some path
      error := none
      provider := none
      downloaded_at := some now
      extracted := siblingExists
      extracted_path := if siblingExists then some extracted_path else none
      extraction_status := some (if siblingExists then "completed" else "idle")
      extraction_progress := some (if siblingExists then 100 else 0) }
  let dls := alInsert did info s.mem.downloads
  { mem := { downloads := dls, tokens := s.mem.tokens }, file := dls }

/-- The registry-mutating prefix of the Tauri command
`start_webview2_download` (main.rs lines 1194-1220): insert a fresh
starting record, register a new cancellation token, persist. -/
def start_webview2_download (url fname did : String) (s : Sys) : Sys :=
  let info : DownloadInfo :=
    { id := did
      filename := fname
      url := url
      progress := 0
      status := "starting"
      path := none
      error := none
      provider := some "webview2"
      downloaded_at := none
      extracted := false
      extracted_path := none
      extraction_status := some "idle"
      extraction_progress := some 0 }
  let dls := alInsert did info s.mem.downloads
  let toks := did :: s.mem.tokens.filter (fun t => t != did)
  { mem := { downloads := dls, tokens := toks }, file := dls }

/-- The per-record reconciliation of `cleanup_active_downloads`
(state.rs lines 240-247). -/
def cleanupRecord (d : DownloadInfo) : DownloadInfo :=
  if d.status = "starting" ∨ d.status = "downloading" then
    { d with status := "failed",
             error := some "Download interrupted due to application restart" }
  else d

/-- Startup reconciliation `cleanup_active_downloads` (state.rs lines
240-247): every record still in starting or downloading is forced to
failed with the restart message; tokens are untouched (a freshly
loaded registry has none anyway, the field is serde-skipped). -/
def cleanup_active_downloads (a : ActiveDownloads) : ActiveDownloads :=
  { a with downloads := a.downloads.map (fun p => (p.1, cleanupRecord p.2)) }

/-- The empty registry-and-file state (a fresh install). -/
def freshSys : Sys :=
  { mem := { downloads := [], tokens := [] }, file := [] }

/-! ### Association-list lemmas -/

theorem alLookup_alErase_ne {α : Type} {k₁ k : String} (v : List (String × α))
    (h : k₁ ≠ k) : alLookup k₁ (alErase k v) = alLookup k₁ v := by
  induction v with
  | nil => rfl
  | cons p rest ih =>
    by_cases hk : p.1 = k
    · have : (p.1 != k) = false := by simp [hk]
      simp only [alErase, List.filter] at ih ⊢
      rw [this]
      have hne : p.1 ≠ k₁ := by rw [hk]; exact fun hc => h hc.symm
      simp only [alLookup, if_neg hne]
      exact ih
    · have : (p.1 != k) = true := by simp [hk]
      simp only [alErase, List.filter] at ih ⊢
      rw [this]
      by_cases hp : p.1 = k₁
      · simp [alLookup, hp]
      · simp only [alLookup, if_neg hp]
        exact ih

theorem alLookup_alInsert_self {α : Type} (k : String) (v : α) (l : List (String × α)) :
    alLookup k (alInsert k v l) = some v := by
  simp [alInsert, alLookup]

theorem alLookup_alInsert_ne {α : Type} {k₁ k : String} (v : α) (l : List (String × α))
    (h : k₁ ≠ k) : alLookup k₁ (alInsert k v l) = alLookup k₁ l := by
  have hne : k ≠ k₁ := fun hc => h hc.symm
  simp only [alInsert, alLookup, if_neg hne]
  exact alLookup_alErase_ne l h

theorem mem_alInsert {α : Type} {p : String × α} {k : String} {v : α}
    {l : List (String × α)} (h : p ∈ alInsert k v l) :
    p = (k, v) ∨ (p ∈ l ∧ p.1 ≠ k) := by
  simp only [alInsert, List.mem_cons] at h
  rcases h with h | h
  · exact Or.inl h
  · right
    have := List.mem_filter.mp h
    exact ⟨this.1, bne_iff_ne.mp this.2⟩

theorem mem_of_alLookup_eq_some {α : Type} {k : String} {v : α}
    {l : List (String × α)} (h : alLookup k l = some v) : (k, v) ∈ l := by
  induction l with
  | nil => simp [alLookup] at h
  | cons p rest ih =>
    by_cases hp : p.1 = k
    · simp only [alLookup, if_pos hp] at h
      have hv : p.2 = v := by injection h
      have hpk : p = (k, v) := by
        cases p
        simp only at hp hv
        rw [hp, hv]
      rw [← hpk]
      exact List.mem_cons_self _ _
    · simp only [alLookup, if_neg hp] at h
      exact List.mem_cons_of_mem _ (ih h)

theorem alLookup_map_value {α β : Type} (k : String) (f : α → β)
    (l : List (String × α)) :
    alLookup k (l.map (fun p => (p.1, f p.2))) = (alLookup k l).map f := by
  induction l with
  | nil => rfl
  | cons p rest ih =>
    by_cases hp : p.1 = k
    · simp [alLookup, hp]
    · simp only [List.map, alLookup, if_neg hp]
      exact ih

theorem mem_filter_tokens {x k : String} {l : List String} :
    x ∈ l.filter (fun t => t != k) ↔ x ∈ l ∧ x ≠ k := by
  rw [List.mem_filter]
  exact and_congr_right (fun _ => bne_iff_ne)

/-! ### Structural lemmas about the event dispatch step -/

theorem alLookup_ite_alInsert_ne {α : Type} {k did : String} (c : Prop) [Decidable c]
    (v : α) (l : List (String × α)) (hk : k ≠ did) :
    alLookup k (if c then alInsert did v l else l) = alLookup k l := by
  split
  · exact alLookup_alInsert_ne _ _ hk
  · rfl

theorem lookup_step_ne {now : String} {e : Event} {s : Sys} {did k : String}
    (hdid : e.downloadId = some did) (hk : k ≠ did) :
    alLookup k (webview2_response now e s).2.mem.downloads
      = alLookup k s.mem.downloads := by
  simp only [webview2_response, hdid]
  split
  next d hd =>
    rw [alLookup_alInsert_ne _ _ hk, alLookup_ite_alInsert_ne _ _ _ hk]
  next hd =>
    split
    · rw [alLookup_alInsert_ne _ _ hk, alLookup_ite_alInsert_ne _ _ _ hk]
    · rw [alLookup_ite_alInsert_ne _ _ _ hk]

theorem lookup_step_known {now : String} {e : Event} {s : Sys} {did : String}
    {d : DownloadInfo} (hdid : e.downloadId = some did)
    (hd : alLookup did s.mem.downloads = some d) :
    alLookup did (webview2_response now e s).2.mem.downloads
      = some (updateKnown now e (e.status.getD "unknown") e.downloadStarted d) := by
  simp [webview2_response, hdid, hd, alLookup_alInsert_self]

theorem lookup_step_synth {now : String} {e : Event} {s : Sys} {did : String}
    (hdid : e.downloadId = some did)
    (hd : alLookup did s.mem.downloads = none)
    (hns : e.downloadStarted = false)
    (hlen : 0 < did.length)
    (hst : e.status.getD "unknown" = "success" ∨ e.status.getD "unknown" = "error" ∨
           e.status.getD "unknown" = "progress") :
    alLookup did (webview2_response now e s).2.mem.downloads
      = some (synthInfo did (e.status.getD "unknown") e) := by
  simp [webview2_response, hdid, hd, hns, hlen, hst, alLookup_alInsert_self]

theorem lookup_step_started_new {now : String} {e : Event} {s : Sys} {did : String}
    (hdid : e.downloadId = some did)
    (hd : alLookup did s.mem.downloads = none)
    (hs : e.downloadStarted = true) :
    alLookup did (webview2_response now e s).2.mem.downloads
      = some (updateKnown now e (e.status.getD "unknown") true
                (mkStartedInfo did (e.filename.getD "Unknown file"))) := by
  simp [webview2_response, hdid, hd, hs, alLookup_alInsert_self]

theorem tokens_step_subset {now : String} {e : Event} {s : Sys} {x : String}
    (h : x ∈ (webview2_response now e s).2.mem.tokens) : x ∈ s.mem.tokens := by
  cases hdid : e.downloadId with
  | none => simpa [webview2_response, hdid] using h
  | some did =>
    simp only [webview2_response, hdid] at h
    split at h
    · exact (mem_filter_tokens.mp h).1
    · exact h

theorem tokens_step_removed {now : String} {e : Event} {s : Sys} {did : String}
    (hdid : e.downloadId = some did)
    (hst : e.status.getD "unknown" = "success" ∨ e.status.getD "unknown" = "error") :
    did ∉ (webview2_response now e s).2.mem.tokens := by
  intro h
  simp only [webview2_response, hdid] at h
  rw [if_pos hst] at h
  exact (mem_filter_tokens.mp h).2 rfl

theorem tokens_step_nil {now : String} {e : Event} {s : Sys}
    (h : s.mem.tokens = []) : (webview2_response now e s).2.mem.tokens = [] := by
  cases hdid : e.downloadId with
  | none => simp [webview2_response, hdid, h]
  | some did =>
    simp only [webview2_response, hdid, h]
    split <;> rfl

theorem mem_step {now : String} {e : Event} {s : Sys} {did : String}
    {p : String × DownloadInfo} (hdid : e.downloadId = some did)
    (h : p ∈ (webview2_response now e s).2.mem.downloads) :
    p.1 = did ∨ p ∈ s.mem.downloads := by
  simp only [webview2_response, hdid] at h
  have hstep1 : ∀ {l : List (String × DownloadInfo)},
      p ∈ (if e.downloadStarted = true ∧ alLookup did l = none then
            alInsert did (mkStartedInfo did (e.filename.getD "Unknown file")) l
          else l) → p.1 = did ∨ p ∈ l := by
    intro l hp
    split at hp
    · rcases mem_alInsert hp with h₁ | h₁
      · exact Or.inl (by rw [h₁])
      · exact Or.inr h₁.1
    · exact Or.inr hp
  split at h
  next d hd =>
    rcases mem_alInsert h with h₁ | h₁
    · exact Or.inl (by rw [h₁])
    · exact hstep1 h₁.1
  next hd =>
    split at h
    · rcases mem_alInsert h with h₁ | h₁
      · exact Or.inl (by rw [h₁])
      · exact hstep1 h₁.1
    · exact hstep1 h

/-! ### The terminal-status / cancellation-handle invariant -/

/-- A status string is terminal: completed, failed or cancelled. -/
def isTerminal (st : String) : Prop :=
  st = "completed" ∨ st = "failed" ∨ st = "cancelled"

instance : DecidablePred isTerminal := fun st => by
  unfold isTerminal
  infer_instance

/-- The §3 invariant: a record in a terminal status has no cancellation
handle registered for its id. -/
def Inv (a : ActiveDownloads) : Prop :=
  ∀ k d, alLookup k a.downloads = some d → isTerminal d.status → k ∉ a.tokens

theorem inv_fresh : Inv freshSys.mem := by
  intro k d h
  simp [alLookup] at h

theorem updateKnown_eq_or_nonterminal {now : String} {e : Event} {st : String}
    {started : Bool} {d : DownloadInfo}
    (hs : st ≠ "success") (he : st ≠ "error") :
    updateKnown now e st started d = d ∨
      ¬ isTerminal (updateKnown now e st started d).status := by
  unfold updateKnown
  rw [if_neg hs, if_neg he]
  by_cases hp : st = "progress"
  · rw [if_pos hp]
    split
    · split
      · right
        simp [isTerminal]
      · exact Or.inl rfl
    · exact Or.inl rfl
  · rw [if_neg hp]
    right
    simp [isTerminal]

theorem synthInfo_status_progress {did : String} {e : Event} :
    (synthInfo did "progress" e).status = "downloading" := by
  simp [synthInfo]

theorem lookup_step_none {now : String} {e : Event} {s : Sys} {did : String}
    (hdid : e.downloadId = some did)
    (hd : alLookup did s.mem.downloads = none)
    (hns : e.downloadStarted = false)
    (hguard : ¬ (0 < did.length ∧
      (e.status.getD "unknown" = "success" ∨ e.status.getD "unknown" = "error" ∨
       e.status.getD "unknown" = "progress"))) :
    alLookup did (webview2_response now e s).2.mem.downloads = none := by
  simp [webview2_response, hdid, hd, hns, hguard]

/-- Event dispatch preserves the invariant. -/
theorem inv_step {now : String} {e : Event} {s : Sys} (h : Inv s.mem) :
    Inv (webview2_response now e s).2.mem := by
  cases hdid : e.downloadId with
  | none =>
    simpa [webview2_response, hdid] using h
  | some did =>
    intro k d hk hterm htok
    have hxtok : k ∈ s.mem.tokens := tokens_step_subset htok
    by_cases hpk : k = did
    · subst hpk
      by_cases hst : e.status.getD "unknown" = "success" ∨ e.status.getD "unknown" = "error"
      · exact tokens_step_removed hdid hst htok
      · push_neg at hst
        cases hd : alLookup k s.mem.downloads with
        | some d₀ =>
          rw [lookup_step_known hdid hd] at hk
          rcases @updateKnown_eq_or_nonterminal now e (e.status.getD "unknown")
              e.downloadStarted d₀ hst.1 hst.2 with heq | hnt
          · have hdd : d = d₀ := by
              rw [heq] at hk
              exact (Option.some.inj hk).symm
            exact h k d₀ hd (hdd ▸ hterm) hxtok
          · have hdd : d = updateKnown now e (e.status.getD "unknown") e.downloadStarted d₀ :=
              (Option.some.inj hk).symm
            exact hnt (hdd ▸ hterm)
        | none =>
          cases hns : e.downloadStarted with
          | true =>
            rw [lookup_step_started_new hdid hd hns] at hk
            have hdval : d = updateKnown now e (e.status.getD "unknown") true
                (mkStartedInfo k (e.filename.getD "Unknown file")) :=
              (Option.some.inj hk).symm
            rcases @updateKnown_eq_or_nonterminal now e (e.status.getD "unknown")
                true (mkStartedInfo k (e.filename.getD "Unknown file"))
                hst.1 hst.2 with heq | hnt
            · rw [heq] at hdval
              rw [hdval] at hterm
              simp [mkStartedInfo, isTerminal] at hterm
            · exact hnt (hdval ▸ hterm)
          | false =>
            by_cases hguard : 0 < k.length ∧
                (e.status.getD "unknown" = "success" ∨ e.status.getD "unknown" = "error" ∨
                 e.status.getD "unknown" = "progress")
            · have hprog : e.status.getD "unknown" = "progress" := by
                rcases hguard.2 with h₁ | h₁ | h₁
                · exact absurd h₁ hst.1
                · exact absurd h₁ hst.2
                · exact h₁
              rw [lookup_step_synth hdid hd hns hguard.1 hguard.2] at hk
              have hdval : d = synthInfo k (e.status.getD "unknown") e :=
                (Option.some.inj hk).symm
              rw [hdval, hprog] at hterm
              rw [synthInfo_status_progress] at hterm
              simp [isTerminal] at hterm
            · rw [lookup_step_none hdid hd hns hguard] at hk
              exact absurd hk (by simp)
    · rw [lookup_step_ne hdid hpk] at hk
      exact h k d hk hterm hxtok

/-- Cancellation preserves the invariant. -/
theorem inv_cancel {did : String} {s : Sys} (h : Inv s.mem) :
    Inv (cancel_active_download did s).2.mem := by
  by_cases hmem : did ∈ s.mem.tokens
  · cases hd : alLookup did s.mem.downloads with
    | some d₀ =>
      simp only [cancel_active_download, if_pos hmem, hd]
      intro k d hk hterm htok
      have hkf := mem_filter_tokens.mp htok
      by_cases hkd : k = did
      · exact hkf.2 hkd
      · rw [alLookup_alInsert_ne _ _ hkd] at hk
        exact h k d hk hterm hkf.1
    | none =>
      simp only [cancel_active_download, if_pos hmem, hd]
      intro k d hk hterm htok
      exact h k d hk hterm (mem_filter_tokens.mp htok).1
  · simp only [cancel_active_download, if_neg hmem]
    exact h

/-- Starting a download preserves the invariant. -/
theorem inv_start {url fname did : String} {s : Sys} (h : Inv s.mem) :
    Inv (start_webview2_download url fname did s).mem := by
  intro k d hk hterm htok
  simp only [start_webview2_download] at hk htok
  by_cases hkd : k = did
  · subst hkd
    rw [alLookup_alInsert_self] at hk
    have hst : d.status = "starting" := by
      cases hk
      rfl
    rw [hst] at hterm
    simp [isTerminal] at hterm
  · rw [alLookup_alInsert_ne _ _ hkd] at hk
    rcases List.mem_cons.mp htok with h₁ | h₁
    · exact hkd h₁
    · exact h k d hk hterm (mem_filter_tokens.mp h₁).1

/-- Manual registration preserves the invariant provided no handle is
registered for the id being registered. -/
theorem inv_register {did fname path : String} {b : Bool} {now : String} {s : Sys}
    (h : Inv s.mem) (hno : did ∉ s.mem.tokens) :
    Inv (register_manual_download did fname path b now s).mem := by
  intro k d hk hterm htok
  simp only [register_manual_download] at hk htok
  by_cases hkd : k = did
  · subst hkd
    exact hno htok
  · rw [alLookup_alInsert_ne _ _ hkd] at hk
    exact h k d hk hterm htok

/-! ### Progress monotonicity -/

/-- The progress stored for an id, or 0 when no record exists. -/
def progOf (k : String) (l : List (String × DownloadInfo)) : ℚ :=
  ((alLookup k l).map (fun d => d.progress)).getD 0

theorem updateKnown_progress_mono {now : String} {e : Event} {st : String}
    {started : Bool} {d : DownloadInfo}
    (hp : d.progress ≤ 100) (hns : started = false) :
    d.progress ≤ (updateKnown now e st started d).progress := by
  subst hns
  simp only [updateKnown]
  split
  next hsucc =>
    cases hps : e.pathStr with
    | some p =>
      simp only [hps]
      cases e.filename <;> simpa using hp
    | none =>
      simp only [hps]
      split
      next hlt => simpa using le_of_lt (by simpa using hlt)
      next => simp
  next hnsucc =>
    split
    next herr => simp
    next hnerr =>
      split
      next hprog =>
        cases hep : e.progress with
        | some p =>
          simp only [hep]
          split
          next hcond =>
            rcases hcond with hgt | hf
            · simpa using le_of_lt hgt
            · exact absurd hf (by simp)
          next => simp
        | none => simp
      next => simp

/-! ### Persistence: the serde JSON image of the registry

`save_active_downloads_to_file` serializes `ActiveDownloads` with
serde_json and `load_active_downloads_from_file` parses it back.  The
derive attributes say: `downloads` is a plain map field with
`serde(default)`, `tokens` carries `serde(skip)` so it is neither
written nor read (a loaded registry always has an empty token map).
We model the JSON document and the derived encoder/decoder. -/

inductive J where
  | jnull : J
  | jstr : String → J
  | jnum : ℚ → J
  | jbool : Bool → J
  | jobj : List (String × J) → J

def encodeOptStr : Option String → J
  | none => J.jnull
  | some s => J.jstr s

def encodeOptNum : Option ℚ → J
  | none => J.jnull
  | some q => J.jnum q

/-- The serde image of one `DownloadInfo`. -/
def encodeInfo (d : DownloadInfo) : J :=
  J.jobj
    [("id", J.jstr d.id),
     ("filename", J.jstr d.filename),
     ("url", J.jstr d.url),
     ("progress", J.jnum d.progress),
     ("status", J.jstr d.status),
     ("path", encodeOptStr d.path),
     ("error", encodeOptStr d.error),
     ("provider", encodeOptStr d.provider),
     ("downloaded_at", encodeOptStr d.downloaded_at),
     ("extracted", J.jbool d.extracted),
     ("extracted_path", encodeOptStr d.extracted_path),
     ("extraction_status", encodeOptStr d.extraction_status),
     ("extraction_progress", encodeOptNum d.extraction_progress)]

def decodeStr : J → Option String
  | J.jstr s => some s
  | _ => none

def decodeNum : J → Option ℚ
  | J.jnum q => some q
  | _ => none

def decodeBool : J → Option Bool
  | J.jbool b => some b
  | _ => none

/-- A required struct field: the key must be present and well-typed. -/
def getField {α : Type} (fs : List (String × J)) (k : String) (dec : J → Option α) :
    Option α :=
  (alLookup k fs).bind dec

/-- An `Option` struct field: serde accepts a missing key or null as
`None` and otherwise requires the inner type. -/
def getOptField {α : Type} (fs : List (String × J)) (k : String) (dec : J → Option α) :
    Option (Option α) :=
  match alLookup k fs with
  | none => some none
  | some J.jnull => some none
  | some j => (dec j).map some

/-- The serde decoder of one `DownloadInfo`. -/
def decodeInfo : J → Option DownloadInfo
  | J.jobj fs => do
    let id ← getField fs "id" decodeStr
    let filename ← getField fs "filename" decodeStr
    let url ← getField fs "url" decodeStr
    let progress ← getField fs "progress" decodeNum
    let status ← getField fs "status" decodeStr
    let path ← getOptField fs "path" decodeStr
    let error ← getOptField fs "error" decodeStr
    let provider ← getOptField fs "provider" decodeStr
    let downloaded_at ← getOptField fs "downloaded_at" decodeStr
    let extracted ← getField fs "extracted" decodeBool
    let extracted_path ← getOptField fs "extracted_path" decodeStr
    let extraction_status ← getOptField fs "extraction_status" decodeStr
    let extraction_progress ← getOptField fs "extraction_progress" decodeNum
    some { id := id, filename := filename, url := url, progress := progress,
           status := status, path := path, error := error, provider := provider,
           downloaded_at := downloaded_at, extracted := extracted,
           extracted_path := extracted_path, extraction_status := extraction_status,
           extraction_progress := extraction_progress }
  | _ => none

/-- The serde image of the whole registry: just the downloads map
(tokens are serde-skipped). -/
def encodeReg (a : ActiveDownloads) : J :=
  J.jobj [("downloads", J.jobj (a.downloads.map (fun p => (p.1, encodeInfo p.2))))]

def decodeEntries : List (String × J) → Option (List (String × DownloadInfo))
  | [] => some []
  | (k, j) :: rest => do
    let d ← decodeInfo j
    let r ← decodeEntries rest
    some ((k, d) :: r)

/-- The serde decoder of the registry: the downloads field defaults to
empty when absent, and tokens are always reset to empty. -/
def decodeReg : J → Option ActiveDownloads
  | J.jobj fs =>
    match alLookup "downloads" fs with
    | some (J.jobj dfs) =>
      (decodeEntries dfs).map (fun l => { downloads := l, tokens := [] })
    | some _ => none
    | none => some { downloads := [], tokens := [] }
  | _ => none

theorem decodeInfo_encodeInfo (d : DownloadInfo) : decodeInfo (encodeInfo d) = some d := by
  cases d with
  | mk id fn url pr st pa er pv da ex exp exs expr =>
    cases pa <;> cases er <;> cases pv <;> cases da <;>
      cases exp <;> cases exs <;> cases expr <;> rfl

theorem decodeEntries_encode (l : List (String × DownloadInfo)) :
    decodeEntries (l.map (fun p => (p.1, encodeInfo p.2))) = some l := by
  induction l with
  | nil => rfl
  | cons p rest ih =>
    simp [decodeEntries, decodeInfo_encodeInfo, ih]

theorem decodeReg_encodeReg (a : ActiveDownloads) :
    decodeReg (encodeReg a) = some { downloads := a.downloads, tokens := [] } := by
  simp [decodeReg, encodeReg, alLookup, decodeEntries_encode]

/-! ### Event sequences -/

/-- Apply a list of (now, event) pairs through `webview2_response`,
keeping whatever state each call leaves behind. -/
def applyEvents (es : List (String × Event)) (s : Sys) : Sys :=
  es.foldl (fun s p => (webview2_response p.1 p.2 s).2) s

theorem tokens_applyEvents_nil (es : List (String × Event)) (s : Sys)
    (h : s.mem.tokens = []) : (applyEvents es s).mem.tokens = [] := by
  induction es generalizing s with
  | nil => exact h
  | cons p rest ih =>
    exact ih _ (tokens_step_nil h)

/-! ### Claims -/

/-- C1 (amended): a record in a terminal status (completed, failed or
cancelled) having no cancellation handle is preserved by every
operation — event dispatch, cancellation and download start
unconditionally, manual registration provided no handle is registered
for the id being re-registered.  As stated the claim is false:
`register_manual_download` never removes an existing handle, so
manually registering an id with a live download leaves a completed
record whose handle is still present (see the counterexample). -/
theorem claim_c1 (s : Sys) (now url fname did rdid rfname rpath rnow : String)
    (e : Event) (b : Bool) (h : Inv s.mem) (hno : rdid ∉ s.mem.tokens) :
    Inv (webview2_response now e s).2.mem ∧
    Inv (cancel_active_download did s).2.mem ∧
    Inv (start_webview2_download url fname did s).mem ∧
    Inv (register_manual_download rdid rfname rpath b rnow s).mem :=
  ⟨inv_step h, inv_cancel h, inv_start h, inv_register h hno⟩

/-- Witness for C1 at the fresh state and a concrete error event. -/
theorem claim_c1_witness :
    Inv freshSys.mem ∧ "d2" ∉ freshSys.mem.tokens ∧
    (Inv (webview2_response "t"
        ⟨some "d1", some "error", none, none, none, some "m", false⟩ freshSys).2.mem ∧
     Inv (cancel_active_download "d1" freshSys).2.mem ∧
     Inv (start_webview2_download "u" "f" "d1" freshSys).mem ∧
     Inv (register_manual_download "d2" "f" "p" false "t" freshSys).mem) :=
  ⟨fun k d hk _ _ => by simp [alLookup, freshSys] at hk,
   by decide,
   claim_c1 freshSys "t" "u" "f" "d1" "d2" "f" "p" "t"
     ⟨some "d1", some "error", none, none, none, some "m", false⟩ false
     (fun k d hk _ _ => by simp [alLookup, freshSys] at hk)
     (by decide)⟩

/-- C1 counterexample: start a download (which registers a handle for
d1) and then manually register the same id; the record is completed —
a terminal status — yet the handle for d1 is still in the token map. -/
theorem claim_c1_cex :
    ((alLookup "d1" (register_manual_download "d1" "f" "p" false "t"
        (start_webview2_download "u" "f" "d1" freshSys)).mem.downloads).map
      (fun d => d.status) = some "completed") ∧
    isTerminal "completed" ∧
    "d1" ∈ (register_manual_download "d1" "f" "p" false "t"
        (start_webview2_download "u" "f" "d1" freshSys)).mem.tokens := by
  decide

/-- C2: startup reconciliation (`cleanup_active_downloads`) forces
every record still in starting or downloading to failed with the
non-empty restart message, and returns every record in any other
status unchanged. -/
theorem claim_c2 (a : ActiveDownloads) (k : String) (d : DownloadInfo)
    (h : alLookup k a.downloads = some d) :
    alLookup k (cleanup_active_downloads a).downloads =
      some (if d.status = "starting" ∨ d.status = "downloading"
            then { d with status := "failed",
                          error := some "Download interrupted due to application restart" }
            else d)
    ∧ ("Download interrupted due to application restart" : String) ≠ "" := by
  refine ⟨?_, by decide⟩
  simp only [cleanup_active_downloads]
  rw [alLookup_map_value, h]
  rfl

/-- A sample in-flight record used by concrete witnesses. -/
def sampleInfo : DownloadInfo :=
  { id := "a", filename := "a.zip", url := "http://x/a.zip", progress := 42,
    status := "downloading", path := none, error := none, provider := some "webview2",
    downloaded_at := none, extracted := false, extracted_path := none,
    extraction_status := some "idle", extraction_progress := some 0 }

/-- A sample completed record used by concrete witnesses. -/
def sampleDone : DownloadInfo :=
  { sampleInfo with id := "b", status := "completed", progress := 100 }

/-- Witness for C2 on a two-record registry. -/
theorem claim_c2_witness :
    (alLookup "a" [("a", sampleInfo), ("b", sampleDone)] = some sampleInfo) ∧
    (alLookup "a" (cleanup_active_downloads
        { downloads := [("a", sampleInfo), ("b", sampleDone)], tokens := [] }).downloads =
      some (if sampleInfo.status = "starting" ∨ sampleInfo.status = "downloading"
            then { sampleInfo with
                     status := "failed",
                     error := some "Download interrupted due to application restart" }
            else sampleInfo)
     ∧ ("Download interrupted due to application restart" : String) ≠ "") :=
  ⟨by decide,
   claim_c2 { downloads := [("a", sampleInfo), ("b", sampleDone)], tokens := [] }
     "a" sampleInfo (by decide)⟩

/-- C3 (amended): across a single event dispatch whose payload does
not carry downloadStarted = true, the progress of an existing record
never decreases, provided the stored progress is at most 100.  As
stated the claim is false: cancellation — one of the operations the
claim quantifies over — resets progress to 0 (and a progress event
carrying downloadStarted = true, or a stored progress above 100 at a
success event, would also regress it). -/
theorem claim_c3 (s : Sys) (now k : String) (e : Event) (d : DownloadInfo)
    (hl : alLookup k s.mem.downloads = some d)
    (hp : d.progress ≤ 100)
    (hns : e.downloadStarted = false) :
    d.progress ≤ progOf k (webview2_response now e s).2.mem.downloads := by
  cases hdid : e.downloadId with
  | none =>
    simp [webview2_response, hdid, progOf, hl]
  | some did =>
    by_cases hkd : k = did
    · subst hkd
      rw [progOf, lookup_step_known hdid hl]
      simpa using updateKnown_progress_mono hp hns
    · rw [progOf, lookup_step_ne hdid hkd, hl]
      simp

/-- Witness for C3: a progress-42 event on the sample record. -/
theorem claim_c3_witness :
    (alLookup "a" ({ mem := { downloads := [("a", sampleInfo)], tokens := [] },
                     file := [("a", sampleInfo)] } : Sys).mem.downloads = some sampleInfo) ∧
    sampleInfo.progress ≤ 100 ∧
    (⟨some "a", some "progress", some 77, none, none, none, false⟩ : Event).downloadStarted
      = false ∧
    sampleInfo.progress ≤ progOf "a"
      (webview2_response "t" ⟨some "a", some "progress", some 77, none, none, none, false⟩
        { mem := { downloads := [("a", sampleInfo)], tokens := [] },
          file := [("a", sampleInfo)] }).2.mem.downloads :=
  ⟨by decide, by decide, by decide,
   claim_c3 { mem := { downloads := [("a", sampleInfo)], tokens := [] },
              file := [("a", sampleInfo)] } "t" "a"
     ⟨some "a", some "progress", some 77, none, none, none, false⟩ sampleInfo
     (by decide) (by decide) (by decide)⟩

/-- C3 counterexample: after starting d1 and receiving progress 42,
cancelling d1 — one of the operations the claim ranges over — drops
the record's progress from 42 back to 0. -/
theorem claim_c3_cex :
    (progOf "d1" (webview2_response "t"
        ⟨some "d1", some "progress", some 42, none, none, none, false⟩
        (start_webview2_download "http://x/file.zip" "file.zip" "d1" freshSys)).2.mem.downloads
      = 42) ∧
    (progOf "d1" (cancel_active_download "d1"
        (webview2_response "t"
          ⟨some "d1", some "progress", some 42, none, none, none, false⟩
          (start_webview2_download "http://x/file.zip" "file.zip" "d1" freshSys)).2).2.mem.downloads
      = 0) ∧
    (0 : ℚ) < 42 := by
  decide

/-- C4: a success event for a known id completes the record when it
carries a string path (status completed, progress 100, local path,
completion timestamp set to now, filename possibly refreshed), and
otherwise forces status downloading with progress raised to at least
10 (unchanged when already at least 10). -/
theorem claim_c4 (s : Sys) (now did : String) (e : Event) (d : DownloadInfo)
    (hdid : e.downloadId = some did)
    (hst : e.status = some "success")
    (hl : alLookup did s.mem.downloads = some d) :
    alLookup did (webview2_response now e s).2.mem.downloads =
      some (match e.pathStr with
            | some p =>
              { d with filename := e.filename.getD d.filename,
                       status := "completed", progress := 100, path := some p,
                       downloaded_at := some now }
            | none =>
              { d with status := "downloading",
                       progress := if d.progress < 10 then 10 else d.progress }) := by
  rw [lookup_step_known hdid hl]
  have hst' : e.status.getD "unknown" = "success" := by rw [hst]; rfl
  congr 1
  rw [updateKnown, hst', if_pos rfl]
  cases hps : e.pathStr with
  | some p => cases hf : e.filename <;> simp [hf]
  | none => by_cases hlt : d.progress < 10 <;> simp [hlt]

/-- Witness for C4: the success event of the §8 scenario, carrying
path /tmp/file.zip, applied to the started-and-progressed record d1. -/
theorem claim_c4_witness :
    ((⟨some "d1", some "success", none, some (some "/tmp/file.zip"), none, none, false⟩
        : Event).downloadId = some "d1") ∧
    ((⟨some "d1", some "success", none, some (some "/tmp/file.zip"), none, none, false⟩
        : Event).status = some "success") ∧
    (alLookup "d1" (webview2_response "t"
        ⟨some "d1", some "progress", some 42, none, none, none, false⟩
        (start_webview2_download "http://x/file.zip" "file.zip" "d1"
          freshSys)).2.mem.downloads ≠ none) ∧
    (alLookup "d1" (webview2_response "t2"
        ⟨some "d1", some "success", none, some (some "/tmp/file.zip"), none, none, false⟩
        (webview2_response "t"
          ⟨some "d1", some "progress", some 42, none, none, none, false⟩
          (start_webview2_download "http://x/file.zip" "file.zip" "d1"
            freshSys)).2).2.mem.downloads).map
      (fun d => (d.status, d.progress, d.path, d.downloaded_at))
      = some ("completed", 100, some "/tmp/file.zip", some "t2") := by
  refine ⟨by decide, by decide, by decide, ?_⟩
  have h := claim_c4
    (webview2_response "t" ⟨some "d1", some "progress", some 42, none, none, none, false⟩
      (start_webview2_download "http://x/file.zip" "file.zip" "d1" freshSys)).2
    "t2" "d1"
    ⟨some "d1", some "success", none, some (some "/tmp/file.zip"), none, none, false⟩
    (updateKnown "t" ⟨some "d1", some "progress", some 42, none, none, none, false⟩
      "progress" false
      { id := "d1", filename := "file.zip", url := "http://x/file.zip", progress := 0,
        status := "starting", path := none, error := none, provider := some "webview2",
        downloaded_at := none, extracted := false, extracted_path := none,
        extraction_status := some "idle", extraction_progress := some 0 })
    rfl rfl (by decide)
  rw [h]
  decide

/-- C5: cancelling an id with no registered cancellation handle fails
with the not-found error and leaves the whole state — downloads map,
token map and persisted file — untouched. -/
theorem claim_c5 (s : Sys) (did : String) (h : did ∉ s.mem.tokens) :
    cancel_active_download did s =
      (Except.error ("No active download found for id: " ++ did), s) := by
  simp [cancel_active_download, h]

/-- Witness for C5: cancelling d3 on a registry with a record but no
handle. -/
theorem claim_c5_witness :
    ("d3" ∉ ({ mem := { downloads := [("a", sampleInfo)], tokens := [] },
               file := [("a", sampleInfo)] } : Sys).mem.tokens) ∧
    cancel_active_download "d3"
        { mem := { downloads := [("a", sampleInfo)], tokens := [] },
          file := [("a", sampleInfo)] } =
      (Except.error ("No active download found for id: " ++ "d3"),
       { mem := { downloads := [("a", sampleInfo)], tokens := [] },
         file := [("a", sampleInfo)] }) :=
  ⟨by decide,
   claim_c5 { mem := { downloads := [("a", sampleInfo)], tokens := [] },
              file := [("a", sampleInfo)] } "d3" (by decide)⟩

/-- C6: cancelling an id with a registered handle signals the token,
sends the best-effort cancel instruction to the helper (plus the
cancel event and the user notification), marks the record cancelled
with the user-triggered message, removes the handle, persists the
registry and returns success. -/
theorem claim_c6 (s : Sys) (did : String) (d : DownloadInfo)
    (ht : did ∈ s.mem.tokens)
    (hl : alLookup did s.mem.downloads = some d) :
    (cancel_active_download did s).1 =
      Except.ok [Effect.signalToken did, Effect.helperCancel did, Effect.emitCancel did,
                 Effect.notifyUser "Download Cancelled" ("Download " ++ did ++ " was cancelled")] ∧
    alLookup did (cancel_active_download did s).2.mem.downloads =
      some { d with status := "cancelled", progress := 0,
                    error := some "Download cancelled by user" } ∧
    did ∉ (cancel_active_download did s).2.mem.tokens ∧
    (cancel_active_download did s).2.file = (cancel_active_download did s).2.mem.downloads := by
  simp only [cancel_active_download, if_pos ht, hl]
  refine ⟨by trivial, ?_, ?_, by trivial⟩
  · exact alLookup_alInsert_self _ _ _
  · intro hmem
    exact (mem_filter_tokens.mp hmem).2 rfl

/-- Witness for C6: cancelling the in-flight record a with its handle
registered. -/
theorem claim_c6_witness :
    ("a" ∈ ({ mem := { downloads := [("a", sampleInfo)], tokens := ["a"] },
              file := [("a", sampleInfo)] } : Sys).mem.tokens) ∧
    (alLookup "a" ({ mem := { downloads := [("a", sampleInfo)], tokens := ["a"] },
                     file := [("a", sampleInfo)] } : Sys).mem.downloads = some sampleInfo) ∧
    ((cancel_active_download "a"
        { mem := { downloads := [("a", sampleInfo)], tokens := ["a"] },
          file := [("a", sampleInfo)] }).1 =
      Except.ok [Effect.signalToken "a", Effect.helperCancel "a", Effect.emitCancel "a",
                 Effect.notifyUser "Download Cancelled" ("Download " ++ "a" ++ " was cancelled")] ∧
     alLookup "a" (cancel_active_download "a"
        { mem := { downloads := [("a", sampleInfo)], tokens := ["a"] },
          file := [("a", sampleInfo)] }).2.mem.downloads =
      some { sampleInfo with
               status := "cancelled", progress := 0,
               error := some "Download cancelled by user" } ∧
     "a" ∉ (cancel_active_download "a"
        { mem := { downloads := [("a", sampleInfo)], tokens := ["a"] },
          file := [("a", sampleInfo)] }).2.mem.tokens ∧
     (cancel_active_download "a"
        { mem := { downloads := [("a", sampleInfo)], tokens := ["a"] },
          file := [("a", sampleInfo)] }).2.file =
       (cancel_active_download "a"
        { mem := { downloads := [("a", sampleInfo)], tokens := ["a"] },
          file := [("a", sampleInfo)] }).2.mem.downloads) :=
  ⟨by decide, by decide,
   claim_c6 { mem := { downloads := [("a", sampleInfo)], tokens := ["a"] },
              file := [("a", sampleInfo)] } "a" sampleInfo (by decide) (by decide)⟩

/-- C7: the persisted image of a registry decodes back to the original
registry whenever it holds no live cancellation handles (handles are
never serialized, so the reloaded token map is empty). -/
theorem claim_c7 (a : ActiveDownloads) (h : a.tokens = []) :
    decodeReg (encodeReg a) = some a := by
  rw [decodeReg_encodeReg]
  cases a with
  | mk dls toks =>
    simp only at h
    rw [h]

/-- Witness for C7 on a two-record registry without handles. -/
theorem claim_c7_witness :
    (({ downloads := [("a", sampleInfo), ("b", sampleDone)], tokens := [] }
        : ActiveDownloads).tokens = []) ∧
    decodeReg (encodeReg
        { downloads := [("a", sampleInfo), ("b", sampleDone)], tokens := [] }) =
      some { downloads := [("a", sampleInfo), ("b", sampleDone)], tokens := [] } :=
  ⟨rfl,
   claim_c7 { downloads := [("a", sampleInfo), ("b", sampleDone)], tokens := [] } rfl⟩

/-- C8 (amended): across any sequence of status events dispatched to a
fresh registry the token map stays empty, so in particular every
record in a terminal status has no cancellation handle.  The
stickiness half of the claim is false: terminal states can be left
again — a later progress event with a larger progress value moves a
failed record back to downloading (see the counterexample), exactly
the gap §9 of the spec warns about. -/
theorem claim_c8 (es : List (String × Event)) :
    (applyEvents es freshSys).mem.tokens = [] :=
  tokens_applyEvents_nil es freshSys rfl

/-- C8 counterexample: an error event makes d1 failed (terminal), and
a subsequent progress event changes its status again, to downloading. -/
theorem claim_c8_cex :
    ((alLookup "d1" (applyEvents
        [("t", ⟨some "d1", some "error", none, none, none, some "x", false⟩)]
        freshSys).mem.downloads).map (fun d => d.status) = some "failed") ∧
    isTerminal "failed" ∧
    ((alLookup "d1" (applyEvents
        [("t", ⟨some "d1", some "error", none, none, none, some "x", false⟩),
         ("t2", ⟨some "d1", some "progress", some 50, none, none, none, false⟩)]
        freshSys).mem.downloads).map (fun d => d.status) = some "downloading") := by
  decide

/-- C9 (amended): an error event carrying a message, for a non-empty
id with no existing record, leaves a record for that id with status
failed and the event's message as its error.  As stated the claim is
false for the empty id: the synthesis branch requires a non-empty id,
so an error event with downloadId set to the empty string inserts
nothing (see the counterexample). -/
theorem claim_c9 (s : Sys) (now did m : String) (e : Event)
    (hdid : e.downloadId = some did)
    (hst : e.status = some "error")
    (hm : e.message = some m)
    (hlen : 0 < did.length)
    (hl : alLookup did s.mem.downloads = none) :
    (alLookup did (webview2_response now e s).2.mem.downloads).map
      (fun d => (d.status, d.error)) = some ("failed", some m) := by
  have hst' : e.status.getD "unknown" = "error" := by rw [hst]; rfl
  cases hns : e.downloadStarted with
  | false =>
    rw [lookup_step_synth hdid hl hns hlen (Or.inr (Or.inl hst'))]
    simp [synthInfo, hst', hm]
  | true =>
    rw [lookup_step_started_new hdid hl hns]
    simp [updateKnown, hst', hm]

/-- Witness for C9: the §8 scenario — an error event for the unknown
id d2 with message "disk full". -/
theorem claim_c9_witness :
    ((⟨some "d2", some "error", none, none, none, some "disk full", false⟩
        : Event).downloadId = some "d2") ∧
    ((⟨some "d2", some "error", none, none, none, some "disk full", false⟩
        : Event).status = some "error") ∧
    ((⟨some "d2", some "error", none, none, none, some "disk full", false⟩
        : Event).message = some "disk full") ∧
    (0 < "d2".length) ∧
    (alLookup "d2" freshSys.mem.downloads = none) ∧
    (alLookup "d2" (webview2_response "t"
        ⟨some "d2", some "error", none, none, none, some "disk full", false⟩
        freshSys).2.mem.downloads).map (fun d => (d.status, d.error)) =
      some ("failed", some "disk full") :=
  ⟨rfl, rfl, rfl, by decide, rfl,
   claim_c9 freshSys "t" "d2" "disk full"
     ⟨some "d2", some "error", none, none, none, some "disk full", false⟩
     rfl rfl rfl (by decide) rfl⟩

/-- C9 counterexample: the same error event with the empty string as
id inserts no record at all — the registry stays empty. -/
theorem claim_c9_cex :
    (webview2_response "t"
        ⟨some "", some "error", none, none, none, some "disk full", false⟩
        freshSys).2.mem.downloads = [] := by
  decide

/-- C10: an event payload without a downloadId string field is
rejected with an error before the registry is touched: the downloads
map, the token map and the persisted file are all returned unchanged. -/
theorem claim_c10 (s : Sys) (now : String) (e : Event)
    (h : e.downloadId = none) :
    webview2_response now e s =
      (Except.error "Missing downloadId in WebView2 response", s) := by
  simp [webview2_response, h]

/-- Witness for C10 on a one-record state. -/
theorem claim_c10_witness :
    ((⟨none, some "progress", some 50, none, none, none, false⟩
        : Event).downloadId = none) ∧
    webview2_response "t" ⟨none, some "progress", some 50, none, none, none, false⟩
        { mem := { downloads := [("a", sampleInfo)], tokens := ["a"] },
          file := [("a", sampleInfo)] } =
      (Except.error "Missing downloadId in WebView2 response",
       { mem := { downloads := [("a", sampleInfo)], tokens := ["a"] },
         file := [("a", sampleInfo)] }) :=
  ⟨rfl,
   claim_c10 { mem := { downloads := [("a", sampleInfo)], tokens := ["a"] },
               file := [("a", sampleInfo)] } "t"
     ⟨none, some "progress", some 50, none, none, none, false⟩ rfl⟩

end Chanomhub
